import Mathlib

/-!
Shallow embedding of the vraq PCB defect-detection core
(`src/models/detection.py`, `src/models/image_processing.py`,
`src/config/settings.py`, `src/app.py`) and proofs of the spec claims.

Numeric conventions: Python floats are modelled as exact rationals (ℚ),
Python ints as ℤ/ℕ.  The imaging-library primitives (contour extraction,
ORB keypoint detection, brute-force descriptor matching, blurring,
normalisation) are treated as an external capability: their outputs are
inputs of the embedded functions, exactly at the boundary where the
source code consumes them; everything the repository itself computes from
those outputs is embedded faithfully.
-/

/-- Detection-relevant part of `Config` from `src/config/settings.py`
(lines 13-15).  The full class also carries directory, file-handling,
Flask and performance settings that the detection pipeline never reads.
Note: the class has no `MIN_COMPONENT_AREA` and no `MAX_DIMENSION`
attribute (relevant to claims C8 and C9). -/
structure Config where
  CONFIDENCE_THRESHOLD : ℚ
  LOCATION_TOLERANCE : ℤ
deriving Repr, DecidableEq

/-- Default configuration values: `float(os.getenv('CONFIDENCE_THRESHOLD', '0.8'))`
and `int(os.getenv('LOCATION_TOLERANCE', '10'))`. -/
def defaultConfig : Config :=
  { CONFIDENCE_THRESHOLD := 4 / 5, LOCATION_TOLERANCE := 10 }

/-- Per-component status strings produced by `_analyze_component_orb`. -/
inductive CompStatus where
  | OK
  | MISALIGNED
  | MISSING
deriving Repr, DecidableEq

/-- Overall status strings produced by `analyze_pcb`. -/
inductive OverallStatus where
  | OK
  | DEFECTS_FOUND
  | ERROR
deriving Repr, DecidableEq

/-- The value of `np.pi`, i.e. the IEEE-754 double nearest to π,
which is exactly 884279719003555 / 2^48. -/
def npPi : ℚ := 884279719003555 / 281474976710656

/-- Aspect ratio as computed in `_classify_component_type`
(`detection.py` line 137): `width / height if height > 0 else 1`. -/
def aspectOf (width height : ℕ) : ℚ :=
  if height > 0 then (width : ℚ) / height else 1

/-- Circularity as computed in `_classify_component_type`
(`detection.py` lines 139-143): `4 * np.pi * area / (perimeter * perimeter)`
when `perimeter > 0`, else `0`. -/
def circularityOf (area perimeter : ℚ) : ℚ :=
  if perimeter > 0 then 4 * npPi * area / (perimeter * perimeter) else 0

/-- Embedding of `DefectDetector._classify_component_type`
(`detection.py` lines 132-152).  `area` is `cv2.contourArea(contour)` and
`perimeter` is `cv2.arcLength(contour, True)`, both supplied by the
imaging library; `width`, `height` come from the bounding box. -/
def classifyComponentType (area perimeter : ℚ) (width height : ℕ) : String :=
  if circularityOf area perimeter > 7 / 10 then "capacitor"
  else if aspectOf width height > 2 ∨ aspectOf width height < 1 / 2 then "resistor"
  else if area > 1000 then "ic"
  else "component"

/-- Contour acceptance test of `DefectDetector._detect_components`
(`detection.py` lines 102-104): the loop body starts with
`if area < 100: continue`, so a contour survives iff `¬ (area < 100)`.
The bound `100` is a literal in the source. -/
def componentAreaAccepted (area : ℚ) : Bool := decide (¬ area < 100)

/-- The hard-coded `self.max_dimension = 1920` of
`ImageProcessor.__init__` (`image_processing.py` line 14). -/
def maxDimension : ℕ := 1920

/-- Python `int()` applied to an exact rational: truncation toward zero. -/
def pyInt (q : ℚ) : ℤ := if 0 ≤ q then ⌊q⌋ else ⌈q⌉

/-- Shape effect of `ImageProcessor.resize_image`
(`image_processing.py` lines 86-114) on an image of shape
`(rows, cols) = (height, width)`: pass through when
`max(height, width) <= 1920`, otherwise scale both sides by
`1920 / longer_side` and truncate with `int()`. -/
def resizeShape (shape : ℕ × ℕ) : ℕ × ℕ :=
  let height := shape.1
  let width := shape.2
  if max height width ≤ maxDimension then shape
  else
    let scale : ℚ := if height > width then (maxDimension : ℚ) / height
                     else (maxDimension : ℚ) / width
    ((pyInt ((height : ℚ) * scale)).toNat, (pyInt ((width : ℚ) * scale)).toNat)

/-- Shape effect of `ImageProcessor.preprocess_image`
(`image_processing.py` lines 65-84): resize, then a 3×3 Gaussian blur and
a min-max normalisation, both of which preserve the shape; so on shapes
preprocessing is exactly `resizeShape`. -/
def preprocessShape (shape : ℕ × ℕ) : ℕ × ℕ := resizeShape shape

/-- Component record built by `_detect_components` (`detection.py`
lines 117-124).  The `template` image and the bounding box are consumed
only through the imaging library (ORB on the template), which is
abstracted by `OrbObservation`, so they are not carried here; `area` is
used only by the acceptance test and the classifier, both embedded
separately. -/
structure Component where
  name : String
  type : String
  expected_location : ℤ × ℤ
deriving Repr, DecidableEq

/-- One entry of the list returned by `bf.match(des1, des2)`
(`detection.py` line 185): its Hamming `distance` (an integer count for
`cv2.NORM_HAMMING`) and the position `kp2[match.trainIdx].pt` of the
matched test-image keypoint (a pair of floats, modelled as rationals). -/
structure DMatch where
  distance : ℕ
  trainPt : ℚ × ℚ
deriving Repr, DecidableEq

/-- Output of the imaging-library calls made by `_analyze_component_orb`
for one component: whether `orb.detectAndCompute` returned descriptors
for the template (`des1`) and the test image (`des2`), and the match
list produced by the brute-force matcher when both are present. -/
structure OrbObservation where
  des1Present : Bool
  des2Present : Bool
  matchList : List DMatch
deriving Repr, DecidableEq

/-- Stable insertion of a match into a distance-sorted list: the new
element goes before the first strictly-greater element and after equal
ones that were already in place. -/
def insertByDistance (m : DMatch) : List DMatch → List DMatch
  | [] => [m]
  | n :: ns =>
    if m.distance ≤ n.distance then m :: n :: ns
    else n :: insertByDistance m ns

/-- Embedding of `sorted(matches, key=lambda x: x.distance)`
(`detection.py` line 188) as a stable insertion sort; Python's `sorted`
is also stable, so the two agree element for element. -/
def sortByDistance : List DMatch → List DMatch
  | [] => []
  | m :: ms => insertByDistance m (sortByDistance ms)

/-- Test `deviation > tol` of `detection.py` line 209 with
`deviation = sqrt devSq` kept symbolic: for the nonnegative radicand
`devSq` the comparison `sqrt devSq > tol` holds iff `tol < 0` or
`tol ^ 2 < devSq`, which stays in exact integer arithmetic. -/
def deviationExceedsTol (devSq tol : ℤ) : Bool :=
  decide (tol < 0 ∨ tol ^ 2 < devSq)

/-- Decision logic of `_analyze_component_orb`, `detection.py`
lines 205-216 (the StatusResolver of the spec): from the confidence, the
detected center and the squared deviation, produce the status, the
reported location and the reported deviation.  The last component is
the square of the reported `deviation_pixels` (see `ComponentResult`). -/
def resolveStatus (cfg : Config) (confidence : ℚ) (detected_center : ℤ × ℤ)
    (devSq : ℤ) : CompStatus × Option (ℤ × ℤ) × Option ℤ :=
  if confidence < cfg.CONFIDENCE_THRESHOLD then
    (.MISSING, none, none)
  else if deviationExceedsTol devSq cfg.LOCATION_TOLERANCE then
    (.MISALIGNED, some detected_center, some devSq)
  else
    (.OK, some detected_center, some devSq)

/-- Result dictionary built by `_analyze_component_orb`
(`detection.py` lines 170-237).  `deviation_sq_pixels` holds the square
of the source's `deviation_pixels` (the source stores
`float(np.sqrt(devSq))`; the square is kept to stay in exact
arithmetic); it is `some`/`none` exactly when the source field is a
number/`None`. -/
structure ComponentResult where
  name : String
  status : CompStatus
  confidence : ℚ
  expected_location : ℤ × ℤ
  detected_location : Option (ℤ × ℤ)
  deviation_sq_pixels : Option ℤ
  component_type : String
deriving Repr, DecidableEq

/-- Embedding of `DefectDetector._analyze_component_orb`
(`detection.py` lines 154-237).  The ORB/BFMatcher library outputs are
supplied as `obs`; everything computed from them by the source is
embedded: the `des1 is None or des2 is None` early return, the empty
match-list early return, the best (lowest-distance) match after the
stable sort, `detected_center = [int(pt[0]), int(pt[1])]`, the squared
Euclidean deviation, `confidence = 1.0 - distance / 100.0`, and the
threshold logic of `resolveStatus`. -/
def analyzeComponentOrb (cfg : Config) (comp : Component)
    (obs : OrbObservation) : ComponentResult :=
  if !obs.des1Present || !obs.des2Present then
    { name := comp.name, status := .MISSING, confidence := 0,
      expected_location := comp.expected_location, detected_location := none,
      deviation_sq_pixels := none, component_type := comp.type }
  else
    match sortByDistance obs.matchList with
    | [] =>
      { name := comp.name, status := .MISSING, confidence := 0,
        expected_location := comp.expected_location, detected_location := none,
        deviation_sq_pixels := none, component_type := comp.type }
    | best :: _ =>
      let detected_center : ℤ × ℤ := (pyInt best.trainPt.1, pyInt best.trainPt.2)
      let devSq : ℤ := (detected_center.1 - comp.expected_location.1) ^ 2 +
                       (detected_center.2 - comp.expected_location.2) ^ 2
      let confidence : ℚ := 1 - (best.distance : ℚ) / 100
      let rsd := resolveStatus cfg confidence detected_center devSq
      { name := comp.name, status := rsd.1, confidence := confidence,
        expected_location := comp.expected_location,
        detected_location := rsd.2.1, deviation_sq_pixels := rsd.2.2,
        component_type := comp.type }

/-- Normalized visualization-space position, the dictionary built by
`_calculate_vr_position` (`detection.py` lines 239-251). -/
structure VRPosition where
  x : ℚ
  y : ℚ
  z : ℚ
deriving Repr, DecidableEq

/-- Embedding of `DefectDetector._calculate_vr_position`
(`detection.py` lines 239-251): normalize against the fixed 1920×1080
reference plane and recenter. -/
def calculateVrPosition (image_coords : ℤ × ℤ) : VRPosition :=
  { x := (image_coords.1 : ℚ) / 1920 - 1 / 2,
    y := 0,
    z := 1 / 2 - (image_coords.2 : ℚ) / 1080 }

/-- Defect-marker dictionary appended in `analyze_pcb`
(`detection.py` lines 54-58). -/
structure DefectMarker where
  position : VRPosition
  type : CompStatus
  component : String
deriving Repr, DecidableEq

/-- Marker built from a non-OK component result
(`detection.py` lines 54-58): position from the expected location,
type from the status, component from the name. -/
def markerOf (r : ComponentResult) : DefectMarker :=
  { position := calculateVrPosition r.expected_location,
    type := r.status, component := r.name }

/-- The `image_dimensions` dictionary of the success report
(`detection.py` lines 68-71): `width = test_img.shape[1]`,
`height = test_img.shape[0]`. -/
structure Dims where
  width : ℕ
  height : ℕ
deriving Repr, DecidableEq

/-- Report dictionary returned by `analyze_pcb`.  The success path
(`detection.py` lines 60-72) sets every field except `error`; the
exception path (lines 79-86) sets `error` and leaves out
`image_dimensions` entirely, which is modelled by the `Option`. -/
structure AnalysisReport where
  analysis_id : String
  timestamp : String
  overall_status : OverallStatus
  components : List ComponentResult
  defect_markers : List DefectMarker
  image_dimensions : Option Dims
  error : Option String
deriving Repr, DecidableEq

/-- Accumulator of the per-component loop of `analyze_pcb`
(`detection.py` lines 42-58): the `component_results` and
`defect_markers` lists and the running `overall_status`. -/
structure LoopState where
  component_results : List ComponentResult
  defect_markers : List DefectMarker
  overall_status : OverallStatus
deriving Repr, DecidableEq

/-- Body of the `for component in components` loop of `analyze_pcb`
(`detection.py` lines 46-58): analyze the component, append the result,
and on a non-OK status switch the overall status to DEFECTS_FOUND and
append a marker. -/
def loopStep (cfg : Config) (st : LoopState)
    (p : Component × OrbObservation) : LoopState :=
  let result := analyzeComponentOrb cfg p.1 p.2
  let st1 : LoopState :=
    { st with component_results := st.component_results ++ [result] }
  if result.status ≠ .OK then
    { st1 with overall_status := .DEFECTS_FOUND,
               defect_markers := st1.defect_markers ++ [markerOf result] }
  else st1

/-- Embedding of `DefectDetector.analyze_pcb` (`detection.py`
lines 19-86).  The fallible, library-driven stages (grayscale
conversion, contrast enhancement, thresholding, contour extraction, ORB
runs) are abstracted as `stages`: `.ok comps` supplies the detected
components paired with their per-component ORB observations, `.error e`
is any exception raised before completion with message `str(e)`.  The
two shapes are `(rows, cols)` of the reference and test images as
received; the exception handler (lines 77-86) returns the ERROR report
with empty lists and no `image_dimensions` key.  The embedding is a
total function: no input makes it propagate an exception. -/
def analyze_pcb (cfg : Config) (analysis_id timestamp : String)
    (refShape testShape : ℕ × ℕ)
    (stages : Except String (List (Component × OrbObservation))) :
    AnalysisReport :=
  match stages with
  | .ok comps =>
    let final := comps.foldl (loopStep cfg) ⟨[], [], .OK⟩
    { analysis_id := analysis_id, timestamp := timestamp,
      overall_status := final.overall_status,
      components := final.component_results,
      defect_markers := final.defect_markers,
      image_dimensions := some ⟨testShape.2, testShape.1⟩,
      error := none }
  | .error e =>
    { analysis_id := analysis_id, timestamp := timestamp,
      overall_status := .ERROR,
      components := [], defect_markers := [],
      image_dimensions := none,
      error := some e }

/-- Composition performed by the `/analyze` route of `src/app.py`
(lines 119-128): both uploaded images go through
`ImageProcessor.load_image`, which decodes and then runs
`preprocess_image` (so their shapes become `preprocessShape` of the raw
shapes), and the preprocessed images are what `analyze_pcb` receives. -/
def loadAndAnalyze (cfg : Config) (analysis_id timestamp : String)
    (refRawShape testRawShape : ℕ × ℕ)
    (stages : Except String (List (Component × OrbObservation))) :
    AnalysisReport :=
  analyze_pcb cfg analysis_id timestamp
    (preprocessShape refRawShape) (preprocessShape testRawShape) stages

/-- Sample component used by concrete witnesses. -/
def sampleComponent : Component :=
  { name := "component_01", type := "component", expected_location := (0, 0) }


/-- Component results accumulated by the per-component loop of
`analyze_pcb`, relative to an arbitrary starting accumulator: results
are appended in order. -/
theorem foldl_loopStep_results (cfg : Config)
    (l : List (Component × OrbObservation)) (st : LoopState) :
    (l.foldl (loopStep cfg) st).component_results
      = st.component_results ++ l.map (fun p => analyzeComponentOrb cfg p.1 p.2) := by
  induction l generalizing st with
  | nil => simp
  | cons a l ih =>
    rw [List.foldl_cons, ih]
    by_cases h : (analyzeComponentOrb cfg a.1 a.2).status = CompStatus.OK <;>
      simp [loopStep, h]

/-- Defect markers accumulated by the per-component loop of
`analyze_pcb`: one marker is appended per non-OK result, in order. -/
theorem foldl_loopStep_markers (cfg : Config)
    (l : List (Component × OrbObservation)) (st : LoopState) :
    (l.foldl (loopStep cfg) st).defect_markers
      = st.defect_markers ++
          (l.map (fun p => analyzeComponentOrb cfg p.1 p.2)).filterMap
            (fun r => if r.status ≠ CompStatus.OK then some (markerOf r) else none) := by
  induction l generalizing st with
  | nil => simp
  | cons a l ih =>
    rw [List.foldl_cons, ih]
    by_cases h : (analyzeComponentOrb cfg a.1 a.2).status = CompStatus.OK <;>
      simp [loopStep, h, List.filterMap_cons]

/-- Overall status produced by the per-component loop of `analyze_pcb`:
DEFECTS_FOUND exactly when some processed component's result is non-OK,
the starting status otherwise. -/
theorem foldl_loopStep_overall (cfg : Config)
    (l : List (Component × OrbObservation)) (st : LoopState) :
    (l.foldl (loopStep cfg) st).overall_status
      = if ∃ p ∈ l, (analyzeComponentOrb cfg p.1 p.2).status ≠ CompStatus.OK
        then OverallStatus.DEFECTS_FOUND else st.overall_status := by
  induction l generalizing st with
  | nil => simp
  | cons a l ih =>
    rw [List.foldl_cons, ih]
    by_cases h : (analyzeComponentOrb cfg a.1 a.2).status = CompStatus.OK
    · by_cases hl : ∃ p ∈ l, (analyzeComponentOrb cfg p.1 p.2).status ≠ CompStatus.OK
      · have hcons : ∃ p ∈ a :: l,
            (analyzeComponentOrb cfg p.1 p.2).status ≠ CompStatus.OK := by
          obtain ⟨p, hp, hne⟩ := hl
          exact ⟨p, List.mem_cons_of_mem a hp, hne⟩
        simp [loopStep, h, hl, hcons]
      · have hcons : ¬ ∃ p ∈ a :: l,
            (analyzeComponentOrb cfg p.1 p.2).status ≠ CompStatus.OK := by
          rintro ⟨p, hp, hne⟩
          rcases List.mem_cons.mp hp with hpa | hpl
          · exact hne (hpa ▸ h)
          · exact hl ⟨p, hpl, hne⟩
        simp [loopStep, h, hl, hcons]
    · have hcons : ∃ p ∈ a :: l,
          (analyzeComponentOrb cfg p.1 p.2).status ≠ CompStatus.OK :=
        ⟨a, List.mem_cons_self a l, h⟩
      simp [loopStep, h, hcons]

/-- Length of a filterMap that keeps exactly the elements satisfying a
decidable predicate. -/
theorem length_filterMap_if {α β : Type} (g : α → β) (p : α → Prop)
    [DecidablePred p] (l : List α) :
    (l.filterMap (fun r => if p r then some (g r) else none)).length
      = (l.filter (fun r => p r)).length := by
  induction l with
  | nil => rfl
  | cons a l ih =>
    by_cases h : p a <;> simp [List.filterMap_cons, h, ih]

/-- C1: on every completed (non-ERROR) analysis, the overall status is
DEFECTS_FOUND iff some component result has a non-OK status (and is OK
otherwise), and the number of defect markers equals the number of
component results with non-OK status. -/
theorem analyze_pcb_defects_invariant (cfg : Config) (aid ts : String)
    (rs tss : ℕ × ℕ) (comps : List (Component × OrbObservation)) :
    (analyze_pcb cfg aid ts rs tss (.ok comps)).overall_status ≠ OverallStatus.ERROR
  ∧ ((analyze_pcb cfg aid ts rs tss (.ok comps)).overall_status = OverallStatus.DEFECTS_FOUND
       ↔ ∃ r ∈ (analyze_pcb cfg aid ts rs tss (.ok comps)).components,
           r.status ≠ CompStatus.OK)
  ∧ ((analyze_pcb cfg aid ts rs tss (.ok comps)).overall_status ≠ OverallStatus.DEFECTS_FOUND
       → (analyze_pcb cfg aid ts rs tss (.ok comps)).overall_status = OverallStatus.OK)
  ∧ (analyze_pcb cfg aid ts rs tss (.ok comps)).defect_markers.length
       = ((analyze_pcb cfg aid ts rs tss (.ok comps)).components.filter
            (fun r => r.status ≠ CompStatus.OK)).length := by
  have h1 := foldl_loopStep_results cfg comps ⟨[], [], OverallStatus.OK⟩
  have h2 := foldl_loopStep_markers cfg comps ⟨[], [], OverallStatus.OK⟩
  have h3 := foldl_loopStep_overall cfg comps ⟨[], [], OverallStatus.OK⟩
  simp only [analyze_pcb, h1, h2, h3, List.nil_append]
  by_cases hex : ∃ p ∈ comps, (analyzeComponentOrb cfg p.1 p.2).status ≠ CompStatus.OK
  · refine ⟨by simp [hex], ?_, by simp [hex], ?_⟩
    · simp only [hex, if_true]
      constructor
      · intro _
        obtain ⟨p, hp, hne⟩ := hex
        exact ⟨analyzeComponentOrb cfg p.1 p.2, List.mem_map.mpr ⟨p, hp, rfl⟩, hne⟩
      · intro _
        trivial
    · exact length_filterMap_if markerOf (fun r => r.status ≠ CompStatus.OK) _
  · refine ⟨by simp [hex], ?_, by simp [hex], ?_⟩
    · simp only [hex, if_false]
      constructor
      · intro hcontra
        cases hcontra
      · rintro ⟨r, hr, hne⟩
        obtain ⟨p, hp, rfl⟩ := List.mem_map.mp hr
        exact absurd ⟨p, hp, hne⟩ hex
    · exact length_filterMap_if markerOf (fun r => r.status ≠ CompStatus.OK) _

/-- Witness for C1 at a concrete input: one component whose template
yields no descriptors, hence a MISSING result, a DEFECTS_FOUND overall
status and one marker. -/
theorem analyze_pcb_defects_invariant_witness :
    (analyze_pcb defaultConfig "a1" "t1" (4, 6) (5, 7)
        (.ok [(sampleComponent, ⟨false, true, []⟩)])).overall_status
      = OverallStatus.DEFECTS_FOUND
  ∧ (analyze_pcb defaultConfig "a1" "t1" (4, 6) (5, 7)
        (.ok [(sampleComponent, ⟨false, true, []⟩)])).defect_markers.length = 1 := by
  have h := analyze_pcb_defects_invariant defaultConfig "a1" "t1" (4, 6) (5, 7)
      [(sampleComponent, ⟨false, true, []⟩)]
  constructor
  · refine h.2.1.mpr
      ⟨analyzeComponentOrb defaultConfig sampleComponent ⟨false, true, []⟩, ?_, ?_⟩
    · rw [show (analyze_pcb defaultConfig "a1" "t1" (4, 6) (5, 7)
          (.ok [(sampleComponent, ⟨false, true, []⟩)])).components
          = [analyzeComponentOrb defaultConfig sampleComponent ⟨false, true, []⟩] from rfl]
      exact List.mem_singleton.mpr rfl
    · rw [show (analyzeComponentOrb defaultConfig sampleComponent
          ⟨false, true, []⟩).status = CompStatus.MISSING from rfl]
      decide
  · rw [h.2.2.2]
    rfl

/-- C2: when a pipeline stage raises with a non-empty message, the
embedded `analyze_pcb` (a total function: nothing propagates) returns a
report with status ERROR, empty component and marker lists, and the
captured non-empty message in the `error` field. -/
theorem analyze_pcb_error_boundary (cfg : Config) (aid ts : String)
    (rs tss : ℕ × ℕ) (e : String) (h : e ≠ "") :
    (analyze_pcb cfg aid ts rs tss (.error e)).overall_status = OverallStatus.ERROR
  ∧ (analyze_pcb cfg aid ts rs tss (.error e)).components = []
  ∧ (analyze_pcb cfg aid ts rs tss (.error e)).defect_markers = []
  ∧ (analyze_pcb cfg aid ts rs tss (.error e)).error = some e
  ∧ (analyze_pcb cfg aid ts rs tss (.error e)).error ≠ some "" := by
  refine ⟨rfl, rfl, rfl, rfl, ?_⟩
  simp [analyze_pcb, h]

/-- Witness for C2 at a concrete raised message. -/
theorem analyze_pcb_error_boundary_witness :
    (analyze_pcb defaultConfig "a2" "t2" (4, 6) (5, 7)
        (.error "simulated decode failure")).overall_status = OverallStatus.ERROR
  ∧ (analyze_pcb defaultConfig "a2" "t2" (4, 6) (5, 7)
        (.error "simulated decode failure")).components = []
  ∧ (analyze_pcb defaultConfig "a2" "t2" (4, 6) (5, 7)
        (.error "simulated decode failure")).defect_markers = []
  ∧ (analyze_pcb defaultConfig "a2" "t2" (4, 6) (5, 7)
        (.error "simulated decode failure")).error = some "simulated decode failure"
  ∧ (analyze_pcb defaultConfig "a2" "t2" (4, 6) (5, 7)
        (.error "simulated decode failure")).error ≠ some "" :=
  analyze_pcb_error_boundary defaultConfig "a2" "t2" (4, 6) (5, 7)
    "simulated decode failure" (by decide)

/-- C5 counterexample: the exception-path report of `analyze_pcb`
(`detection.py` lines 79-86) carries no `image_dimensions` at all, so
not every returned report contains a `(width, height)` pair. -/
theorem error_report_missing_dimensions :
    (analyze_pcb defaultConfig "a5" "t5" (4, 6) (5, 7)
        (.error "decode failed")).image_dimensions = none := rfl

/-- C5 as amended: a successfully completed analysis reports
`image_dimensions = (width, height)` of the test image, while the
ERROR-path report omits the field. -/
theorem image_dimensions_presence (cfg : Config) (aid ts : String)
    (rs tss : ℕ × ℕ) :
    (∀ comps, (analyze_pcb cfg aid ts rs tss (.ok comps)).image_dimensions
        = some ⟨tss.2, tss.1⟩)
  ∧ (∀ e, (analyze_pcb cfg aid ts rs tss (.error e)).image_dimensions = none) :=
  ⟨fun _ => rfl, fun _ => rfl⟩

/-- Witness for the amended C5 at concrete shapes. -/
theorem image_dimensions_presence_witness :
    (analyze_pcb defaultConfig "a5w" "t5w" (4, 6) (5, 7)
        (.ok [])).image_dimensions = some ⟨7, 5⟩
  ∧ (analyze_pcb defaultConfig "a5w" "t5w" (4, 6) (5, 7)
        (.error "boom")).image_dimensions = none :=
  ⟨(image_dimensions_presence defaultConfig "a5w" "t5w" (4, 6) (5, 7)).1 [],
   (image_dimensions_presence defaultConfig "a5w" "t5w" (4, 6) (5, 7)).2 "boom"⟩

/-- C4: a confidence exactly equal to CONFIDENCE_THRESHOLD does not
resolve to MISSING (the cutoff at `detection.py` line 205 is a strict
`<`); with a nonnegative tolerance and a passing confidence, a deviation
exactly equal to LOCATION_TOLERANCE (squared deviation equal to its
square) resolves to OK (the cutoff at line 209 is a strict `>`); and
every MISSING result reports `detected_location = None` and
`deviation_pixels = None`, on the threshold path as well as on the
degenerate paths. -/
theorem status_resolution_boundaries :
    (∀ (cfg : Config) (dc : ℤ × ℤ) (devSq : ℤ),
        (resolveStatus cfg cfg.CONFIDENCE_THRESHOLD dc devSq).1 ≠ CompStatus.MISSING)
  ∧ (∀ (cfg : Config) (conf : ℚ) (dc : ℤ × ℤ),
        0 ≤ cfg.LOCATION_TOLERANCE → cfg.CONFIDENCE_THRESHOLD ≤ conf →
        (resolveStatus cfg conf dc (cfg.LOCATION_TOLERANCE ^ 2)).1 = CompStatus.OK)
  ∧ (∀ (cfg : Config) (comp : Component) (obs : OrbObservation),
        (analyzeComponentOrb cfg comp obs).status = CompStatus.MISSING →
        (analyzeComponentOrb cfg comp obs).detected_location = none
      ∧ (analyzeComponentOrb cfg comp obs).deviation_sq_pixels = none) := by
  refine ⟨?_, ?_, ?_⟩
  · intro cfg dc devSq
    unfold resolveStatus
    rw [if_neg (lt_irrefl cfg.CONFIDENCE_THRESHOLD)]
    by_cases h : deviationExceedsTol devSq cfg.LOCATION_TOLERANCE = true <;>
      simp [h]
  · intro cfg conf dc htol hconf
    unfold resolveStatus
    rw [if_neg (not_lt.mpr hconf), if_neg]
    simp only [deviationExceedsTol, decide_eq_true_eq]
    push_neg
    exact ⟨htol, le_refl _⟩
  · intro cfg comp obs
    unfold analyzeComponentOrb
    by_cases hdes : (!obs.des1Present || !obs.des2Present) = true
    · simp [hdes]
    · simp only [hdes, if_false, Bool.false_eq_true]
      cases hs : sortByDistance obs.matchList with
      | nil => simp
      | cons best rest =>
        simp only []
        unfold resolveStatus
        by_cases hc : 1 - (best.distance : ℚ) / 100 < cfg.CONFIDENCE_THRESHOLD
        · simp [hc]
        · by_cases hd : deviationExceedsTol
              ((pyInt best.trainPt.1 - comp.expected_location.1) ^ 2 +
               (pyInt best.trainPt.2 - comp.expected_location.2) ^ 2)
              cfg.LOCATION_TOLERANCE = true
          · simp [hc, hd]
          · simp [hc, hd]

/-- Witness for C4: with the default configuration, a confidence equal
to the threshold is not MISSING; a squared deviation of exactly
`LOCATION_TOLERANCE ^ 2 = 100` (e.g. an offset of (6, 8) pixels) with a
passing confidence is OK; a no-descriptor observation is MISSING with
both optional fields empty. -/
theorem status_resolution_boundaries_witness :
    (resolveStatus defaultConfig defaultConfig.CONFIDENCE_THRESHOLD (0, 0) 5).1
      ≠ CompStatus.MISSING
  ∧ (resolveStatus defaultConfig (9 / 10) (6, 8)
        (defaultConfig.LOCATION_TOLERANCE ^ 2)).1 = CompStatus.OK
  ∧ ((analyzeComponentOrb defaultConfig sampleComponent
        ⟨false, true, []⟩).detected_location = none
    ∧ (analyzeComponentOrb defaultConfig sampleComponent
        ⟨false, true, []⟩).deviation_sq_pixels = none) :=
  ⟨status_resolution_boundaries.1 defaultConfig (0, 0) 5,
   status_resolution_boundaries.2.1 defaultConfig (9 / 10) (6, 8)
     (by norm_num [defaultConfig]) (by norm_num [defaultConfig]),
   status_resolution_boundaries.2.2 defaultConfig sampleComponent
     ⟨false, true, []⟩ rfl⟩

/-- C6: when the template or the test image yields no descriptors, or
the matcher returns no matches, the (total, non-raising) component
analysis reports confidence 0, no detected location and status MISSING. -/
theorem orb_degenerate_missing (cfg : Config) (comp : Component)
    (obs : OrbObservation)
    (h : obs.des1Present = false ∨ obs.des2Present = false ∨ obs.matchList = []) :
    (analyzeComponentOrb cfg comp obs).confidence = 0
  ∧ (analyzeComponentOrb cfg comp obs).detected_location = none
  ∧ (analyzeComponentOrb cfg comp obs).status = CompStatus.MISSING := by
  unfold analyzeComponentOrb
  by_cases hdes : (!obs.des1Present || !obs.des2Present) = true
  · simp [hdes]
  · have hml : obs.matchList = [] := by
      rcases h with h | h | h
      · simp [h] at hdes
      · simp [h] at hdes
      · exact h
    simp [hdes, hml, sortByDistance]

/-- Witness for C6 on the no-descriptor and the no-match path. -/
theorem orb_degenerate_missing_witness :
    ((analyzeComponentOrb defaultConfig sampleComponent
        ⟨true, false, [⟨3, (1, 2)⟩]⟩).confidence = 0
    ∧ (analyzeComponentOrb defaultConfig sampleComponent
        ⟨true, false, [⟨3, (1, 2)⟩]⟩).detected_location = none
    ∧ (analyzeComponentOrb defaultConfig sampleComponent
        ⟨true, false, [⟨3, (1, 2)⟩]⟩).status = CompStatus.MISSING)
  ∧ ((analyzeComponentOrb defaultConfig sampleComponent
        ⟨true, true, []⟩).confidence = 0
    ∧ (analyzeComponentOrb defaultConfig sampleComponent
        ⟨true, true, []⟩).detected_location = none
    ∧ (analyzeComponentOrb defaultConfig sampleComponent
        ⟨true, true, []⟩).status = CompStatus.MISSING) :=
  ⟨orb_degenerate_missing defaultConfig sampleComponent
      ⟨true, false, [⟨3, (1, 2)⟩]⟩ (Or.inr (Or.inl rfl)),
   orb_degenerate_missing defaultConfig sampleComponent
      ⟨true, true, []⟩ (Or.inr (Or.inr rfl))⟩

/-- C3 counterexample: at Hamming distance 150 (well inside the range of
256-bit ORB descriptors) the Feature Matcher confidence
`1 - distance / 100` reported in the component result is -1/2, outside
[0, 1]; the code does not clamp. -/
theorem orb_confidence_out_of_range :
    (analyzeComponentOrb defaultConfig sampleComponent
        ⟨true, true, [⟨150, (0, 0)⟩]⟩).confidence = -(1 / 2)
  ∧ ¬ (0 ≤ (analyzeComponentOrb defaultConfig sampleComponent
        ⟨true, true, [⟨150, (0, 0)⟩]⟩).confidence) := by
  have hconf : (analyzeComponentOrb defaultConfig sampleComponent
      ⟨true, true, [⟨150, (0, 0)⟩]⟩).confidence = 1 - (150 : ℚ) / 100 := rfl
  rw [hconf]
  norm_num

/-- C3 as amended: the reported confidence is always at most 1; it is 0
on the degenerate paths; on a best match of distance d it equals
`1 - d / 100`, which is nonnegative (hence in [0, 1]) iff `d ≤ 100` and
negative for larger distances. -/
theorem orb_confidence_characterization :
    (∀ (cfg : Config) (comp : Component) (obs : OrbObservation),
        (analyzeComponentOrb cfg comp obs).confidence ≤ 1)
  ∧ (∀ (cfg : Config) (comp : Component) (obs : OrbObservation)
        (best : DMatch) (rest : List DMatch),
        sortByDistance obs.matchList = best :: rest →
        obs.des1Present = true → obs.des2Present = true →
        (analyzeComponentOrb cfg comp obs).confidence
            = 1 - (best.distance : ℚ) / 100
      ∧ (0 ≤ (analyzeComponentOrb cfg comp obs).confidence ↔ best.distance ≤ 100)) := by
  constructor
  · intro cfg comp obs
    unfold analyzeComponentOrb
    by_cases hdes : (!obs.des1Present || !obs.des2Present) = true
    · simp [hdes]
    · simp only [hdes, if_false, Bool.false_eq_true]
      cases hs : sortByDistance obs.matchList with
      | nil => simp
      | cons best rest =>
        simp only []
        have : (0 : ℚ) ≤ (best.distance : ℚ) / 100 := by positivity
        linarith
  · intro cfg comp obs best rest hs h1 h2
    have hconf : (analyzeComponentOrb cfg comp obs).confidence
        = 1 - (best.distance : ℚ) / 100 := by
      unfold analyzeComponentOrb
      rw [h1, h2]
      simp only [Bool.not_true, Bool.or_self, Bool.false_eq_true, if_false]
      rw [hs]
    refine ⟨hconf, ?_⟩
    rw [hconf]
    constructor
    · intro hge
      have : (best.distance : ℚ) ≤ 100 := by linarith
      exact_mod_cast this
    · intro hle
      have : (best.distance : ℚ) ≤ 100 := by exact_mod_cast hle
      linarith

/-- Witness for the amended C3: a best match at distance 40 gives
confidence 3/5, inside [0, 1]. -/
theorem orb_confidence_characterization_witness :
    (analyzeComponentOrb defaultConfig sampleComponent
        ⟨true, true, [⟨40, (1, 2)⟩]⟩).confidence = 1 - (40 : ℚ) / 100
  ∧ (0 ≤ (analyzeComponentOrb defaultConfig sampleComponent
        ⟨true, true, [⟨40, (1, 2)⟩]⟩).confidence ↔ (40 : ℕ) ≤ 100) :=
  orb_confidence_characterization.2 defaultConfig sampleComponent
    ⟨true, true, [⟨40, (1, 2)⟩]⟩ ⟨40, (1, 2)⟩ [] rfl rfl rfl

/-- C7: the classifier applies its rules in fixed precedence —
circularity above 0.7 gives capacitor regardless of the other features;
otherwise an aspect ratio above 2 or below 0.5 gives resistor; otherwise
an area above 1000 gives ic; otherwise the catch-all component — with
the defensive defaults aspect ratio 1 for a zero height and circularity
0 for a zero perimeter. -/
theorem classifier_rules :
    (∀ (a p : ℚ) (w h : ℕ), 7 / 10 < circularityOf a p →
        classifyComponentType a p w h = "capacitor")
  ∧ (∀ (a p : ℚ) (w h : ℕ), circularityOf a p ≤ 7 / 10 →
        (2 < aspectOf w h ∨ aspectOf w h < 1 / 2) →
        classifyComponentType a p w h = "resistor")
  ∧ (∀ (a p : ℚ) (w h : ℕ), circularityOf a p ≤ 7 / 10 →
        ¬(2 < aspectOf w h ∨ aspectOf w h < 1 / 2) → 1000 < a →
        classifyComponentType a p w h = "ic")
  ∧ (∀ (a p : ℚ) (w h : ℕ), circularityOf a p ≤ 7 / 10 →
        ¬(2 < aspectOf w h ∨ aspectOf w h < 1 / 2) → a ≤ 1000 →
        classifyComponentType a p w h = "component")
  ∧ (∀ w : ℕ, aspectOf w 0 = 1)
  ∧ (∀ a : ℚ, circularityOf a 0 = 0) := by
  refine ⟨?_, ?_, ?_, ?_, ?_, ?_⟩
  · intro a p w h hc
    unfold classifyComponentType
    rw [if_pos hc]
  · intro a p w h hc har
    unfold classifyComponentType
    rw [if_neg (not_lt.mpr hc), if_pos har]
  · intro a p w h hc har ha
    unfold classifyComponentType
    rw [if_neg (not_lt.mpr hc), if_neg har, if_pos ha]
  · intro a p w h hc har ha
    unfold classifyComponentType
    rw [if_neg (not_lt.mpr hc), if_neg har, if_neg (not_lt.mpr ha)]
  · intro w
    simp [aspectOf]
  · intro a
    simp [circularityOf]

/-- Witness for C7: a contour with circularity exactly 3/4 > 0.7 and
aspect ratio 3 (which would also match the resistor rule) classifies as
capacitor — rule 1 wins. -/
theorem classifier_rules_witness :
    7 / 10 < circularityOf (3 / npPi) 4
  ∧ 2 < aspectOf 3 1
  ∧ classifyComponentType (3 / npPi) 4 3 1 = "capacitor" :=
  ⟨by norm_num [circularityOf, npPi], by norm_num [aspectOf],
   classifier_rules.1 (3 / npPi) 4 3 1 (by norm_num [circularityOf, npPi])⟩

/-- C8 counterexample: the segmenter's acceptance test is the literal
`area < 100` of `detection.py` line 103 and consults no configured
value; the claim that a contour of area `a` is accepted iff `a ≥ v` for
every configured `v` fails at `v = 200`, `a = 150` (accepted although
150 < 200).  The embedded `Config` (faithful to `settings.py`) has no
MIN_COMPONENT_AREA attribute the test could read. -/
theorem min_area_not_configurable :
    ¬ ∀ v : ℚ, (componentAreaAccepted 150 = true ↔ v ≤ 150) := by
  intro hall
  have h200 := (hall 200).mp (by norm_num [componentAreaAccepted])
  norm_num at h200

/-- C8 as amended: the segmenter discards a contour iff its area is
below the fixed constant 100 (the default the spec names, but
hard-coded, not read from configuration): area `a` is accepted iff
`100 ≤ a`. -/
theorem min_area_fixed_threshold (a : ℚ) :
    componentAreaAccepted a = true ↔ 100 ≤ a := by
  simp [componentAreaAccepted, not_lt]

/-- Witness for the amended C8 at areas 150 (accepted) and 99
(discarded). -/
theorem min_area_fixed_threshold_witness :
    componentAreaAccepted 150 = true ∧ ¬ componentAreaAccepted 99 = true :=
  ⟨(min_area_fixed_threshold 150).mpr (by norm_num),
   fun hc => absurd ((min_area_fixed_threshold 99).mp hc) (by norm_num)⟩

/-- C9: an image whose longer side is at most 1920 passes through
`resize_image` unchanged (no upscaling); an image whose longer side
exceeds 1920 is scaled by `1920 / longer_side` so that, in the exact
rational model of the float arithmetic, the longer side of the result is
exactly 1920 and the shorter side is the truncation of
`shorter * 1920 / longer`. -/
theorem resize_image_spec (h w : ℕ) :
    (max h w ≤ maxDimension → resizeShape (h, w) = (h, w))
  ∧ (maxDimension < max h w →
       max (resizeShape (h, w)).1 (resizeShape (h, w)).2 = maxDimension
     ∧ (w < h → resizeShape (h, w)
          = (maxDimension, (pyInt ((w : ℚ) * maxDimension / h)).toNat))
     ∧ (h ≤ w → resizeShape (h, w)
          = ((pyInt ((h : ℚ) * maxDimension / w)).toNat, maxDimension))) := by
  constructor
  · intro hle
    simp [resizeShape, hle]
  · intro hgt
    have hnle : ¬ max h w ≤ maxDimension := not_le.mpr hgt
    by_cases hcase : w < h
    · have hh : maxDimension < h := by
        rwa [Nat.max_eq_left (Nat.le_of_lt hcase)] at hgt
      have hhq0 : (h : ℚ) ≠ 0 := Nat.cast_ne_zero.mpr (by omega)
      have hhqpos : (0 : ℚ) < (h : ℚ) := by
        exact_mod_cast (by omega : 0 < h)
      have e1 : (h : ℚ) * ((maxDimension : ℚ) / h) = (maxDimension : ℚ) := by
        field_simp
      have e2 : (w : ℚ) * ((maxDimension : ℚ) / h) = (w : ℚ) * maxDimension / h := by
        ring
      have hres : resizeShape (h, w)
          = (maxDimension, (pyInt ((w : ℚ) * maxDimension / h)).toNat) := by
        simp only [resizeShape]
        rw [if_neg hnle, if_pos (show h > w from hcase), e1, e2]
        congr 1
      have hq0 : (0 : ℚ) ≤ (w : ℚ) * maxDimension / h := by positivity
      have hqle : (w : ℚ) * maxDimension / h ≤ (maxDimension : ℚ) := by
        rw [div_le_iff₀ hhqpos]
        have hwle : (w : ℚ) ≤ (h : ℚ) := by
          exact_mod_cast Nat.le_of_lt hcase
        nlinarith [(by positivity : (0 : ℚ) ≤ (maxDimension : ℚ))]
      have hfloor : pyInt ((w : ℚ) * maxDimension / h) ≤ (maxDimension : ℤ) := by
        unfold pyInt
        rw [if_pos hq0]
        calc ⌊(w : ℚ) * maxDimension / h⌋
            ≤ ⌊(maxDimension : ℚ)⌋ := Int.floor_le_floor hqle
          _ = (maxDimension : ℤ) := Int.floor_natCast _
      have htn : (pyInt ((w : ℚ) * maxDimension / h)).toNat ≤ maxDimension :=
        Int.toNat_le.mpr hfloor
      exact ⟨by rw [hres]; exact Nat.max_eq_left htn,
             fun _ => hres, fun hle2 => absurd hle2 (by omega)⟩
    · have hwge : h ≤ w := Nat.le_of_not_lt hcase
      have hw2 : maxDimension < w := by
        rwa [Nat.max_eq_right hwge] at hgt
      have hwq0 : (w : ℚ) ≠ 0 := Nat.cast_ne_zero.mpr (by omega)
      have hwqpos : (0 : ℚ) < (w : ℚ) := by
        exact_mod_cast (by omega : 0 < w)
      have e1 : (w : ℚ) * ((maxDimension : ℚ) / w) = (maxDimension : ℚ) := by
        field_simp
      have e2 : (h : ℚ) * ((maxDimension : ℚ) / w) = (h : ℚ) * maxDimension / w := by
        ring
      have hres : resizeShape (h, w)
          = ((pyInt ((h : ℚ) * maxDimension / w)).toNat, maxDimension) := by
        simp only [resizeShape]
        rw [if_neg hnle, if_neg (show ¬ h > w from hcase), e1, e2]
        congr 1
      have hq0 : (0 : ℚ) ≤ (h : ℚ) * maxDimension / w := by positivity
      have hqle : (h : ℚ) * maxDimension / w ≤ (maxDimension : ℚ) := by
        rw [div_le_iff₀ hwqpos]
        have hhle : (h : ℚ) ≤ (w : ℚ) := by exact_mod_cast hwge
        nlinarith [(by positivity : (0 : ℚ) ≤ (maxDimension : ℚ))]
      have hfloor : pyInt ((h : ℚ) * maxDimension / w) ≤ (maxDimension : ℤ) := by
        unfold pyInt
        rw [if_pos hq0]
        calc ⌊(h : ℚ) * maxDimension / w⌋
            ≤ ⌊(maxDimension : ℚ)⌋ := Int.floor_le_floor hqle
          _ = (maxDimension : ℤ) := Int.floor_natCast _
      have htn : (pyInt ((h : ℚ) * maxDimension / w)).toNat ≤ maxDimension :=
        Int.toNat_le.mpr hfloor
      exact ⟨by rw [hres]; exact Nat.max_eq_right htn,
             fun hlt => absurd hlt hcase, fun _ => hres⟩

/-- Witness for C9: a 1080×1920 image passes through unchanged; a
3840×2160 image is scaled so its longer side becomes exactly 1920. -/
theorem resize_image_spec_witness :
    resizeShape (1080, 1920) = (1080, 1920)
  ∧ max (resizeShape (3840, 2160)).1 (resizeShape (3840, 2160)).2 = maxDimension :=
  ⟨(resize_image_spec 1080 1920).1 (by decide),
   ((resize_image_spec 3840 2160).2 (by decide)).1⟩

/-- C10: on the app's analysis route both images are preprocessed by
`load_image` before `analyze_pcb` runs, and the success report's
`image_dimensions` is (width, height) of the preprocessed test image —
its column and row counts — never the reference image's dimensions. -/
theorem report_dimensions_from_test_image (cfg : Config) (aid ts : String)
    (refRaw testRaw : ℕ × ℕ) (comps : List (Component × OrbObservation)) :
    (loadAndAnalyze cfg aid ts refRaw testRaw (.ok comps)).image_dimensions
        = some ⟨(preprocessShape testRaw).2, (preprocessShape testRaw).1⟩
  ∧ (preprocessShape refRaw ≠ preprocessShape testRaw →
      (loadAndAnalyze cfg aid ts refRaw testRaw (.ok comps)).image_dimensions
        ≠ some ⟨(preprocessShape refRaw).2, (preprocessShape refRaw).1⟩) := by
  refine ⟨rfl, fun hne hcontra => ?_⟩
  have hx : (some (⟨(preprocessShape testRaw).2, (preprocessShape testRaw).1⟩ : Dims))
      = some (⟨(preprocessShape refRaw).2, (preprocessShape refRaw).1⟩ : Dims) :=
    hcontra
  simp only [Option.some.injEq, Dims.mk.injEq] at hx
  exact hne (Prod.ext_iff.mpr ⟨hx.2.symm, hx.1.symm⟩)

/-- Witness for C10: a 100×200 reference and a 50×60 test image (both
small enough to pass preprocessing unchanged) give a report whose
dimensions are those of the test image and differ from the reference's. -/
theorem report_dimensions_from_test_image_witness :
    (loadAndAnalyze defaultConfig "a10" "t10" (100, 200) (50, 60)
        (.ok [])).image_dimensions
      = some ⟨(preprocessShape (50, 60)).2, (preprocessShape (50, 60)).1⟩
  ∧ (loadAndAnalyze defaultConfig "a10" "t10" (100, 200) (50, 60)
        (.ok [])).image_dimensions
      ≠ some ⟨(preprocessShape (100, 200)).2, (preprocessShape (100, 200)).1⟩ :=
  ⟨(report_dimensions_from_test_image defaultConfig "a10" "t10"
      (100, 200) (50, 60) []).1,
   (report_dimensions_from_test_image defaultConfig "a10" "t10"
      (100, 200) (50, 60) []).2 (by decide)⟩
